import Mathlib

/-!
Verification of the printing_ffi C library (src/printing_ffi.c) against its
natural-language specification.  The C code is shallowly embedded: pure helpers
(page-range parsing, option normalization) become Lean functions over
Int/Nat/Rat and lists of characters; the Windows device-session
code (PDF page loop, chunked raw write) becomes explicit state passing over an
environment record that captures the outcomes of the OS calls
(OpenPrinter, StartDoc, StartPage, WritePrinter, EndPage, ...).  The
thread-local last-error slot becomes an explicit value threaded through the
operations, with structured error values in place of formatted strings.
-/

namespace PrintingFFI

/-- The character class accepted by C isspace in the default locale. -/
def isSpaceC (c : Char) : Bool :=
  c = ' ' || c = '\t' || c = '\n' || c = '\x0b' || c = '\x0c' || c = '\r'

/-- ASCII decimal digit test, as used by atoi. -/
def isDigitC (c : Char) : Bool :=
  48 ≤ c.toNat && c.toNat ≤ 57

/-- Whitespace trimming applied to each token in parse_page_range:
the loop advances the token pointer over leading isspace characters and
rewrites trailing isspace characters with NUL. -/
def trimC (s : List Char) : List Char :=
  ((s.dropWhile isSpaceC).reverse.dropWhile isSpaceC).reverse

/-- Accumulate the numeric value of a leading run of decimal digits;
conversion stops at the first non-digit character, exactly as atoi does. -/
def digitsVal : List Char → Nat → Nat
  | [], acc => acc
  | c :: cs, acc =>
    if isDigitC c then digitsVal cs (acc * 10 + (c.toNat - 48)) else acc

/-- Model of C atoi: skip leading whitespace, read an optional sign, then
read decimal digits until the first non-digit character; a string with no
leading digits converts to 0.  (Overflow is not modelled; the claims only
involve small values.) -/
def atoiC (s : List Char) : Int :=
  let s1 := s.dropWhile isSpaceC
  match s1 with
  | '-' :: rest => -(digitsVal rest 0 : Int)
  | '+' :: rest => (digitsVal rest 0 : Int)
  | _ => (digitsVal s1 0 : Int)

/-- Parse one page-range token as parse_page_range does: strchr finds the
first dash; if present the text before it is the start page and the text
after it is the end page, otherwise the whole token is a single page.
Both sides are converted with atoi. -/
def parseToken (t : List Char) : Int × Int :=
  match t.span (fun c => c != '-') with
  | (_, []) => (atoiC t, atoiC t)
  | (before, _ :: after) => (atoiC before, atoiC after)

/-- Structured form of the error message written by set_last_error when a
page-range token is rejected: the C code formats the offending token and
the total page count into the message text. -/
structure PageRangeError where
  token : List Char
  pages : Int
deriving Repr, DecidableEq

/-- The inner marking loop of parse_page_range: for i from start to end,
page_flags[i - 1] = true.  The pos argument is the 1-based page number of
the head of the remaining flag list. -/
def markRangeGo (a b : Int) : Int → List Bool → List Bool
  | _, [] => []
  | pos, v :: rest =>
    (if a ≤ pos ∧ pos ≤ b then true else v) :: markRangeGo a b (pos + 1) rest

/-- Mark pages a..b (1-indexed, inclusive) in the flag list. -/
def markRange (a b : Int) (flags : List Bool) : List Bool :=
  markRangeGo a b 1 flags

/-- The token loop of parse_page_range.  Empty tokens (after trimming) are
skipped; a token failing the validation
total_pages <= 0 / start < 1 / end < start / end > total_pages
fails the whole parse with an error naming the token and the page count;
a valid token marks its pages and the loop continues. -/
def parseLoop (totalPages : Int) : List (List Char) → List Bool → Except PageRangeError (List Bool)
  | [], flags => .ok flags
  | t :: ts, flags =>
    if t.length = 0 then parseLoop totalPages ts flags
    else
      let se := parseToken t
      if totalPages ≤ 0 ∨ se.1 < 1 ∨ se.2 < se.1 ∨ se.2 > totalPages then
        .error ⟨t, totalPages⟩
      else
        parseLoop totalPages ts (markRange se.1 se.2 flags)

/-- Model of parse_page_range.  A null (none) or empty range string marks
all pages; otherwise the string is split on commas, each token is trimmed,
and the token loop runs over a flag array initialized to all-false.
Success returns the flag list (the mask); failure returns the structured
error recorded via set_last_error and no mask. -/
def parse_page_range (rangeStr : Option (List Char)) (totalPages : Int) :
    Except PageRangeError (List Bool) :=
  match rangeStr with
  | none => .ok (List.replicate totalPages.toNat true)
  | some s =>
    if s.length = 0 then .ok (List.replicate totalPages.toNat true)
    else parseLoop totalPages ((s.splitOn ',').map trimC) (List.replicate totalPages.toNat false)

/-- A token passes parse_page_range validation for a given page count. -/
def tokenValid (totalPages : Int) (t : List Char) : Prop :=
  0 < totalPages ∧ 1 ≤ (parseToken t).1 ∧ (parseToken t).1 ≤ (parseToken t).2 ∧
    (parseToken t).2 ≤ totalPages

instance (totalPages : Int) (t : List Char) : Decidable (tokenValid totalPages t) := by
  unfold tokenValid; infer_instance

/-- C5/C6 name the token list of a range string: split on commas, trimmed. -/
def tokensOf (s : List Char) : List (List Char) :=
  (s.splitOn ',').map trimC

/-- A token covers a 0-based mask index i when its parsed start and end
pages enclose the 1-based page number i + 1. -/
def covers (t : List Char) (i : Nat) : Prop :=
  (parseToken t).1 ≤ (i : Int) + 1 ∧ ((i : Int) + 1) ≤ (parseToken t).2

instance (t : List Char) (i : Nat) : Decidable (covers t i) := by
  unfold covers; infer_instance

/-! Option normalizer: parse_windows_options.  The C function fills a set
of output parameters from a key/value list; the embedding folds the list
over a record of those outputs.  It is a total function: it never fails
and never touches the last-error slot. -/

/-- The outputs of parse_windows_options.  Numeric fields keep the raw
values the C code stores: orientation 0 = default, 1 = portrait,
2 = landscape; color 0 = default, 1 = monochrome, 2 = color; quality
0 = default, -1 = draft, -2 = low, -3 = medium, -4 = high; duplex 0 =
default (documented in the code as single-sided), 1 = DMDUP_SIMPLEX,
2 = long edge, 3 = short edge. -/
structure WinOptions where
  paper_size_id : Int
  paper_source_id : Int
  orientation : Int
  color_mode : Int
  print_quality : Int
  media_type_id : Int
  custom_scale : ℚ
  collate : Bool
  duplex_mode : Int
deriving Repr, DecidableEq

/-- The defaults parse_windows_options assigns before scanning the list:
all ids and modes 0, scale 1.0, collate true, duplex 0 (the value the
code comments document as single-sided / DMDUP_SIMPLEX). -/
def defaultWinOptions : WinOptions :=
  { paper_size_id := 0, paper_source_id := 0, orientation := 0, color_mode := 0,
    print_quality := 0, media_type_id := 0, custom_scale := 1, collate := true,
    duplex_mode := 0 }

/-- Model of C atof for the custom-scale-factor value: optional
whitespace and sign, integer digits, optional fraction digits.
(Exponent and hexadecimal forms accepted by C atof are not modelled;
no claim exercises them.) -/
def atofQ (s : List Char) : ℚ :=
  let s1 := s.dropWhile isSpaceC
  let signed : Bool × List Char :=
    match s1 with
    | '-' :: rest => (true, rest)
    | '+' :: rest => (false, rest)
    | _ => (false, s1)
  let intPart := signed.2.takeWhile isDigitC
  let rest := signed.2.dropWhile isDigitC
  let fracPart :=
    match rest with
    | '.' :: r => r.takeWhile isDigitC
    | _ => []
  let v : ℚ := (digitsVal intPart 0 : ℚ) +
    (digitsVal fracPart 0 : ℚ) / ((10 : ℚ) ^ fracPart.length)
  if signed.1 then -v else v

/-- One iteration of the key scan in parse_windows_options, mirroring the
strcmp chain of the C loop (including the color-mode branch that forces a
medium print quality when quality is still unset). -/
def applyOption (o : WinOptions) (kv : String × String) : WinOptions :=
  if kv.1 = "paper-size-id" then { o with paper_size_id := atoiC kv.2.data }
  else if kv.1 = "paper-source-id" then { o with paper_source_id := atoiC kv.2.data }
  else if kv.1 = "orientation" then
    { o with orientation := if kv.2 = "landscape" then 2 else 1 }
  else if kv.1 = "color-mode" then
    let o1 := { o with color_mode := if kv.2 = "monochrome" then (1 : Int) else 2 }
    if o1.print_quality = 0 then { o1 with print_quality := -3 } else o1
  else if kv.1 = "print-quality" then
    { o with print_quality :=
        if kv.2 = "draft" then -1 else if kv.2 = "low" then -2
        else if kv.2 = "high" then -4 else -3 }
  else if kv.1 = "media-type-id" then { o with media_type_id := atoiC kv.2.data }
  else if kv.1 = "custom-scale-factor" then { o with custom_scale := atofQ kv.2.data }
  else if kv.1 = "collate" then { o with collate := kv.2 == "true" }
  else if kv.1 = "duplex" then
    if kv.2 = "singleSided" then { o with duplex_mode := 1 }
    else if kv.2 = "duplexLongEdge" then { o with duplex_mode := 2 }
    else if kv.2 = "duplexShortEdge" then { o with duplex_mode := 3 }
    else o
  else o

/-- Model of parse_windows_options: defaults, then a left-to-right scan
of the option list. -/
def parse_windows_options (opts : List (String × String)) : WinOptions :=
  opts.foldl applyOption defaultWinOptions

/-! Device session.  The Windows print paths are modelled as functions of
an environment recording the outcome of each OS/PDF call.  The
thread-local error slot g_last_error_message becomes an explicit value of
type Option ErrMsg, where none models an empty or cleared slot (the state
in which get_last_error returns the empty string) and some e models a
slot holding the formatted message e. -/

/-- Structured forms of the set_last_error messages of the Windows PDF
path, each carrying the data the C code formats into the message. -/
inductive ErrMsg where
  | utf16
  | loadDoc
  | createDC
  | startDoc
  | pageCount (n : Int)
  | alloc
  | pageRange (e : PageRangeError)
  | loadPage (page : Nat)
  | startPage (page : Nat)
  | endPage (page : Nat)
deriving Repr, DecidableEq

/-- Environment for one run of _print_pdf_job_win: the outcome of each
external call, per 0-indexed page where relevant. -/
structure PdfEnv where
  utf16Ok : Bool
  loadOk : Bool
  createDCOk : Bool
  startDocRet : Int
  pageCount : Int
  allocOk : Bool
  loadPageOk : Nat → Bool
  startPageOk : Nat → Bool
  endPageOk : Nat → Bool

/-- Observable outcome of one run of _print_pdf_job_win: the returned
value, the final error slot, the 0-indexed pages passed to
FPDF_RenderPage, and which of EndDoc / AbortDoc / DeleteDC were called. -/
structure PdfOutcome where
  ret : Int
  slot : Option ErrMsg
  rendered : List Nat
  endDocCalled : Bool
  abortDocCalled : Bool
  deleteDCCalled : Bool
deriving Repr, DecidableEq

/-- State carried through the per-page loop of _print_pdf_job_win. -/
structure LoopState where
  success : Bool
  rendered : List Nat
  slot : Option ErrMsg
deriving Repr, DecidableEq

/-- The per-page loop of _print_pdf_job_win: pages run in order while the
success flag holds; excluded pages are skipped; a page-load or StartPage
failure records an error and breaks before rendering; otherwise the page
is rendered and an EndPage failure records an error and clears the
success flag (which stops the loop at its next test).  The Nat argument
is the 0-indexed page of the head of the remaining mask. -/
def pageLoop (env : PdfEnv) : Nat → List Bool → LoopState → LoopState
  | _, [], st => st
  | i, incl :: rest, st =>
    if !st.success then st
    else if !incl then pageLoop env (i + 1) rest st
    else if !env.loadPageOk i then { st with success := false, slot := some (.loadPage i) }
    else if !env.startPageOk i then { st with success := false, slot := some (.startPage i) }
    else
      let st1 := { st with rendered := st.rendered ++ [i] }
      if !env.endPageOk i then
        pageLoop env (i + 1) rest { st1 with success := false, slot := some (.endPage i) }
      else pageLoop env (i + 1) rest st1

/-- Model of _print_pdf_job_win.  The function clears the error slot on
entry, then runs the failure-checked pipeline: UTF-16 conversion, PDF
load, CreateDC, StartDoc (job id must be positive), page count, page-flag
allocation, page-range parse, the page loop, and finally EndDoc on
success or AbortDoc on failure, with DeleteDC on every path that created
the device context.  With submitJob true the return value is the job id
on success and 0 on failure; with submitJob false it is 1 or 0. -/
def _print_pdf_job_win (env : PdfEnv) (pageRange : Option (List Char)) (submitJob : Bool) :
    PdfOutcome :=
  if !env.utf16Ok then ⟨0, some .utf16, [], false, false, false⟩
  else if !env.loadOk then ⟨0, some .loadDoc, [], false, false, false⟩
  else if !env.createDCOk then ⟨0, some .createDC, [], false, false, false⟩
  else if env.startDocRet ≤ 0 then ⟨0, some .startDoc, [], false, false, true⟩
  else if env.pageCount ≤ 0 then ⟨0, some (.pageCount env.pageCount), [], false, true, true⟩
  else if !env.allocOk then ⟨0, some .alloc, [], false, true, true⟩
  else
    match parse_page_range pageRange env.pageCount with
    | .error e => ⟨0, some (.pageRange e), [], false, true, true⟩
    | .ok mask =>
      let st := pageLoop env 0 mask ⟨true, [], none⟩
      { ret := if submitJob then (if st.success then env.startDocRet else 0)
          else (if st.success then 1 else 0),
        slot := st.slot,
        rendered := st.rendered,
        endDocCalled := st.success,
        abortDocCalled := !st.success,
        deleteDCCalled := true }

/-- Model of print_pdf: argument validation (null pointers or a
nonpositive copy count return false without touching the error slot),
then the Windows PDF path with submit_job false, returning whether that
path returned 1. -/
def print_pdf (env : PdfEnv) (argsOk : Bool) (copies : Int)
    (pageRange : Option (List Char)) (slot : Option ErrMsg) : Bool × Option ErrMsg :=
  if !argsOk ∨ copies ≤ 0 then (false, slot)
  else
    let out := _print_pdf_job_win env pageRange false
    (out.ret == 1, out.slot)

/-- Model of submit_pdf_job: argument validation as in print_pdf, then
the Windows PDF path with submit_job true, returning its value. -/
def submit_pdf_job (env : PdfEnv) (argsOk : Bool) (copies : Int)
    (pageRange : Option (List Char)) (slot : Option ErrMsg) : Int × Option ErrMsg :=
  if !argsOk ∨ copies ≤ 0 then (0, slot)
  else
    let out := _print_pdf_job_win env pageRange true
    (out.ret, out.slot)

/-- Environment for the raw-data Windows paths: outcomes of the UTF-16
conversion, OpenPrinter, StartDocPrinter (0 means failure, a positive
value is the job id), StartPagePrinter, and each WritePrinter call
(indexed by call number and given the requested chunk size; none is a
failed call, some n reports n bytes written). -/
structure RawEnv where
  utf16Ok : Bool
  openOk : Bool
  startDocJob : Nat
  startPageOk : Bool
  write : Nat → Nat → Option Nat

/-- The 64 KB chunk size of the chunked-write loops. -/
def CHUNK_SIZE : Nat := 65536

/-- State of the chunked-write loop: the success flag, the accumulated
total of reported written bytes, and the requested size of each
WritePrinter call made so far. -/
structure ChunkState where
  writeSuccess : Bool
  totalWritten : Nat
  calls : List Nat
deriving Repr, DecidableEq

/-- The chunked-write loop: while the total written is below the payload
length, request min(remaining, CHUNK_SIZE) bytes; a failed WritePrinter
clears the success flag and breaks; otherwise the reported count is added
to the total.  The C loop terminates whenever every successful write
reports at least one byte; the fuel argument (instantiated with
length + 1 in chunkWrite, enough for any such run) makes the recursion
structural. -/
def chunkLoop (write : Nat → Nat → Option Nat) (len : Nat) : Nat → ChunkState → ChunkState
  | 0, st => st
  | fuel + 1, st =>
    if st.totalWritten < len then
      let req := min (len - st.totalWritten) CHUNK_SIZE
      match write st.calls.length req with
      | none => { st with writeSuccess := false, calls := st.calls ++ [req] }
      | some n =>
        chunkLoop write len fuel
          { st with totalWritten := st.totalWritten + n, calls := st.calls ++ [req] }
    else st

/-- Run the chunked-write loop from the initial state. -/
def chunkWrite (write : Nat → Nat → Option Nat) (len : Nat) : ChunkState :=
  chunkLoop write len (len + 1) ⟨true, 0, []⟩

/-- Model of the Windows path of submit_raw_data_job: argument
validation, UTF-16 conversion, OpenPrinter, StartDocPrinter (must return
a nonzero job id), StartPagePrinter, then the chunked write; the job id
is returned regardless of the outcome of the write loop, and the error
slot is never written on any path. -/
def submit_raw_data_job (env : RawEnv) (argsOk : Bool) (len : Int)
    (slot : Option ErrMsg) : Int × Option ErrMsg :=
  if !argsOk ∨ len ≤ 0 then (0, slot)
  else if !env.utf16Ok then (0, slot)
  else if !env.openOk then (0, slot)
  else if env.startDocJob = 0 then (0, slot)
  else if !env.startPageOk then (0, slot)
  else
    let _st := chunkWrite env.write len.toNat
    ((env.startDocJob : Int), slot)

/-- Model of the Windows path of raw_data_to_printer: same pipeline as
submit_raw_data_job, but the result is the boolean
write_success AND total_written = length, and again the error slot is
never written. -/
def raw_data_to_printer (env : RawEnv) (argsOk : Bool) (len : Int)
    (slot : Option ErrMsg) : Bool × Option ErrMsg :=
  if !argsOk ∨ len ≤ 0 then (false, slot)
  else if !env.utf16Ok then (false, slot)
  else if !env.openOk then (false, slot)
  else if env.startDocJob = 0 then (false, slot)
  else if !env.startPageOk then (false, slot)
  else
    let st := chunkWrite env.write len.toNat
    (st.writeSuccess && st.totalWritten == len.toNat, slot)

/-- Environment for the C1 counterexample: every stage succeeds, StartDoc
assigns job id 7 on a 1-page document, and EndPage fails. -/
def envPdfEndPageFail : PdfEnv :=
  { utf16Ok := true, loadOk := true, createDCOk := true, startDocRet := 7,
    pageCount := 1, allocOk := true, loadPageOk := fun _ => true,
    startPageOk := fun _ => true, endPageOk := fun _ => false }

/-- Environment for the C3 counterexample: OpenPrinter fails. -/
def envRawOpenFail : RawEnv :=
  { utf16Ok := true, openOk := false, startDocJob := 0, startPageOk := false,
    write := fun _ _ => none }

/-- Environment for the C3 witness: loading the PDF document fails. -/
def envPdfLoadFail : PdfEnv :=
  { utf16Ok := true, loadOk := false, createDCOk := true, startDocRet := 7,
    pageCount := 1, allocOk := true, loadPageOk := fun _ => true,
    startPageOk := fun _ => true, endPageOk := fun _ => true }

/-- A page operation on a 0-indexed page fails when FPDF_LoadPage,
StartPage or EndPage fails for it. -/
def pageOpFails (env : PdfEnv) (i : Nat) : Prop :=
  env.loadPageOk i = false ∨ env.startPageOk i = false ∨ env.endPageOk i = false

instance (env : PdfEnv) (i : Nat) : Decidable (pageOpFails env i) := by
  unfold pageOpFails; infer_instance

/-- Environment for the C2 witness: a 5-page document with all stages
succeeding except StartPage on the second page (0-indexed page 1). -/
def env5 : PdfEnv :=
  { utf16Ok := true, loadOk := true, createDCOk := true, startDocRet := 7,
    pageCount := 5, allocOk := true, loadPageOk := fun _ => true,
    startPageOk := fun i => i != 1, endPageOk := fun _ => true }


theorem markRangeGo_length (a b pos : Int) (flags : List Bool) :
    (markRangeGo a b pos flags).length = flags.length := by
  induction flags generalizing pos with
  | nil => rfl
  | cons v rest ih => simp [markRangeGo, ih]

theorem markRange_length (a b : Int) (flags : List Bool) :
    (markRange a b flags).length = flags.length :=
  markRangeGo_length a b 1 flags

theorem markRangeGo_get (a b pos : Int) (flags : List Bool) (i : Nat) (h : i < flags.length) :
    (markRangeGo a b pos flags).get ⟨i, by rw [markRangeGo_length]; exact h⟩ =
      if a ≤ pos + (i : Int) ∧ pos + (i : Int) ≤ b then true else flags.get ⟨i, h⟩ := by
  induction flags generalizing pos i with
  | nil => exact absurd h (by simp)
  | cons v rest ih =>
    cases i with
    | zero => simp [markRangeGo]
    | succ n =>
      have hn : n < rest.length := by simpa using h
      have := ih (pos + 1) n hn
      simp only [markRangeGo, List.get_cons_succ]
      rw [this, show pos + 1 + (n : Int) = pos + ((n : Int) + 1) by ring]
      norm_num

theorem markRange_get (a b : Int) (flags : List Bool) (i : Nat) (h : i < flags.length) :
    (markRange a b flags).get ⟨i, by rw [markRange_length]; exact h⟩ =
      if a ≤ (i : Int) + 1 ∧ (i : Int) + 1 ≤ b then true else flags.get ⟨i, h⟩ := by
  have := markRangeGo_get a b 1 flags i h
  rw [show (1 : Int) + (i : Int) = (i : Int) + 1 by ring] at this
  exact this

/-- The negation of token validity is exactly the rejection test that
parse_page_range performs. -/
theorem not_tokenValid_iff (N : Int) (t : List Char) :
    ¬ tokenValid N t ↔
      (N ≤ 0 ∨ (parseToken t).1 < 1 ∨ (parseToken t).2 < (parseToken t).1 ∨
        (parseToken t).2 > N) := by
  unfold tokenValid; omega

/-- If every nonempty token in the list is valid, the token loop succeeds
and the resulting mask is true at exactly the positions that were already
true or are covered by some nonempty token. -/
theorem parseLoop_ok (N : Int) (ts : List (List Char))
    (hall : ∀ t ∈ ts, t.length ≠ 0 → tokenValid N t) (flags : List Bool) :
    ∃ flags', parseLoop N ts flags = .ok flags' ∧ flags'.length = flags.length ∧
      ∀ (i : Nat) (h : i < flags.length) (h' : i < flags'.length),
        (flags'.get ⟨i, h'⟩ = true ↔
          flags.get ⟨i, h⟩ = true ∨ ∃ t ∈ ts, t.length ≠ 0 ∧ covers t i) := by
  induction ts generalizing flags with
  | nil =>
    refine ⟨flags, rfl, rfl, fun i h h' => ?_⟩
    simp
  | cons t ts ih =>
    by_cases ht : t.length = 0
    · obtain ⟨flags', h1, h2, h3⟩ := ih (fun u hu => hall u (List.mem_cons_of_mem t hu)) flags
      refine ⟨flags', by simpa [parseLoop, ht] using h1, h2, fun i h h' => ?_⟩
      rw [h3 i h h']
      constructor
      · rintro (hl | ⟨u, hu, hne, hc⟩)
        · exact Or.inl hl
        · exact Or.inr ⟨u, List.mem_cons_of_mem t hu, hne, hc⟩
      · rintro (hl | ⟨u, hu, hne, hc⟩)
        · exact Or.inl hl
        · rcases List.mem_cons.mp hu with rfl | hu'
          · exact absurd ht hne
          · exact Or.inr ⟨u, hu', hne, hc⟩
    · have hval : tokenValid N t := hall t (List.mem_cons_self t ts) ht
      have hcond : ¬ (N ≤ 0 ∨ (parseToken t).1 < 1 ∨ (parseToken t).2 < (parseToken t).1 ∨
          (parseToken t).2 > N) := by
        unfold tokenValid at hval; omega
      obtain ⟨flags', h1, h2, h3⟩ :=
        ih (fun u hu => hall u (List.mem_cons_of_mem t hu))
          (markRange (parseToken t).1 (parseToken t).2 flags)
      refine ⟨flags', ?_, by rwa [markRange_length] at h2, fun i h h' => ?_⟩
      · simpa [parseLoop, ht, hcond] using h1
      · have hm : i < (markRange (parseToken t).1 (parseToken t).2 flags).length := by
          rw [markRange_length]; exact h
        rw [h3 i hm h', markRange_get (parseToken t).1 (parseToken t).2 flags i h]
        constructor
        · rintro (hl | ⟨u, hu, hne, hc⟩)
          · by_cases hcov : (parseToken t).1 ≤ (i : Int) + 1 ∧ (i : Int) + 1 ≤ (parseToken t).2
            · exact Or.inr ⟨t, List.mem_cons_self t ts, ht, hcov⟩
            · rw [if_neg hcov] at hl
              exact Or.inl hl
          · exact Or.inr ⟨u, List.mem_cons_of_mem t hu, hne, hc⟩
        · rintro (hl | ⟨u, hu, hne, hc⟩)
          · left
            split
            · rfl
            · exact hl
          · rcases List.mem_cons.mp hu with rfl | hu'
            · have hc' : (parseToken u).1 ≤ (i : Int) + 1 ∧ (i : Int) + 1 ≤ (parseToken u).2 := hc
              exact Or.inl (by rw [if_pos hc'])
            · exact Or.inr ⟨u, hu', hne, hc⟩

/-- If some nonempty token in the list is invalid, the token loop fails
with an error naming an offending token and the page count. -/
theorem parseLoop_error (N : Int) (ts : List (List Char)) (flags : List Bool)
    (hbad : ∃ t ∈ ts, t.length ≠ 0 ∧ ¬ tokenValid N t) :
    ∃ e : PageRangeError, parseLoop N ts flags = .error e ∧ e.pages = N ∧
      e.token ∈ ts ∧ e.token.length ≠ 0 ∧ ¬ tokenValid N e.token := by
  induction ts generalizing flags with
  | nil => simp at hbad
  | cons t ts ih =>
    by_cases ht : t.length = 0
    · have hbad' : ∃ u ∈ ts, u.length ≠ 0 ∧ ¬ tokenValid N u := by
        obtain ⟨u, hu, hne, hinv⟩ := hbad
        rcases List.mem_cons.mp hu with rfl | hu'
        · exact absurd ht hne
        · exact ⟨u, hu', hne, hinv⟩
      obtain ⟨e, h1, h2, h3, h4, h5⟩ := ih flags hbad'
      exact ⟨e, by simpa [parseLoop, ht] using h1, h2, List.mem_cons_of_mem t h3, h4, h5⟩
    · by_cases hval : tokenValid N t
      · have hcond : ¬ (N ≤ 0 ∨ (parseToken t).1 < 1 ∨ (parseToken t).2 < (parseToken t).1 ∨
            (parseToken t).2 > N) := by
          unfold tokenValid at hval; omega
        have hbad' : ∃ u ∈ ts, u.length ≠ 0 ∧ ¬ tokenValid N u := by
          obtain ⟨u, hu, hne, hinv⟩ := hbad
          rcases List.mem_cons.mp hu with rfl | hu'
          · exact absurd hval hinv
          · exact ⟨u, hu', hne, hinv⟩
        obtain ⟨e, h1, h2, h3, h4, h5⟩ :=
          ih (markRange (parseToken t).1 (parseToken t).2 flags) hbad'
        exact ⟨e, by simpa [parseLoop, ht, hcond] using h1, h2,
          List.mem_cons_of_mem t h3, h4, h5⟩
      · have hcond : N ≤ 0 ∨ (parseToken t).1 < 1 ∨ (parseToken t).2 < (parseToken t).1 ∨
            (parseToken t).2 > N := (not_tokenValid_iff N t).mp hval
        exact ⟨⟨t, N⟩, by simp [parseLoop, ht, hcond], rfl,
          List.mem_cons_self t ts, ht, hval⟩

/-- C7: a null or empty range string yields an all-true mask of length N. -/
theorem parse_page_range_empty (N : Int) (_hN : 1 ≤ N) (r : Option (List Char))
    (hr : r = none ∨ r = some []) :
    parse_page_range r N = .ok (List.replicate N.toNat true) ∧
      (List.replicate N.toNat true).length = N.toNat ∧
      ∀ x ∈ List.replicate N.toNat true, x = true := by
  rcases hr with h | h <;> subst h
  · exact ⟨rfl, List.length_replicate _ _, fun x hx => List.eq_of_mem_replicate hx⟩
  · exact ⟨rfl, List.length_replicate _ _, fun x hx => List.eq_of_mem_replicate hx⟩

/-- Closed instance of the C7 theorem at N = 3. -/
theorem parse_page_range_empty_witness :
    parse_page_range none 3 = .ok (List.replicate (3 : Int).toNat true) ∧
      (List.replicate (3 : Int).toNat true).length = (3 : Int).toNat ∧
      ∀ x ∈ List.replicate (3 : Int).toNat true, x = true :=
  parse_page_range_empty 3 (by decide) none (Or.inl rfl)

/-- C5: if a range string contains a nonempty token whose parsed pages a, b
violate b >= a >= 1, b <= N, or the page count N is nonpositive, then
parse_page_range fails the whole parse, produces no mask, and records an
error naming an offending token together with the page count. -/
theorem parse_page_range_invalid_token (s : List Char) (N : Int)
    (hs : s.length ≠ 0)
    (hbad : ∃ t ∈ tokensOf s, t.length ≠ 0 ∧ ¬ tokenValid N t) :
    ∃ e : PageRangeError, parse_page_range (some s) N = .error e ∧
      e.pages = N ∧ e.token ∈ tokensOf s ∧ e.token.length ≠ 0 ∧ ¬ tokenValid N e.token := by
  obtain ⟨e, h1, h2, h3, h4, h5⟩ :=
    parseLoop_error N (tokensOf s) (List.replicate N.toNat false) hbad
  exact ⟨e, by simpa [parse_page_range, hs, tokensOf] using h1, h2, h3, h4, h5⟩

/-- Closed instance of the C5 theorem: token 0 is rejected for a 5-page
document and the recorded error names the token and the page count. -/
theorem parse_page_range_invalid_token_witness :
    ∃ e : PageRangeError, parse_page_range (some ['0']) 5 = .error e ∧
      e.pages = 5 ∧ e.token ∈ tokensOf ['0'] ∧ e.token.length ≠ 0 ∧ ¬ tokenValid 5 e.token :=
  parse_page_range_invalid_token ['0'] 5 (by decide) (by decide)

/-- C6: if every nonempty token of the range string is valid for page count
N, parsing succeeds with a mask of length N that is true at exactly the
0-based indices covered by some token; in particular every index in
[a - 1, b - 1] of a token a-b is true, and since the mask is characterized
by coverage alone, overlapping tokens cannot change the result. -/
theorem parse_page_range_valid_tokens (s : List Char) (N : Int)
    (hs : s.length ≠ 0)
    (hall : ∀ t ∈ tokensOf s, t.length ≠ 0 → tokenValid N t) :
    ∃ mask, parse_page_range (some s) N = .ok mask ∧ mask.length = N.toNat ∧
      ∀ (i : Nat) (h : i < mask.length),
        (mask.get ⟨i, h⟩ = true ↔ ∃ t ∈ tokensOf s, t.length ≠ 0 ∧ covers t i) := by
  obtain ⟨mask, h1, h2, h3⟩ := parseLoop_ok N (tokensOf s) hall (List.replicate N.toNat false)
  have hlen : mask.length = N.toNat := by simpa using h2
  refine ⟨mask, by simpa [parse_page_range, hs, tokensOf] using h1, hlen, fun i h => ?_⟩
  have hi : i < (List.replicate N.toNat false).length := by
    rw [List.length_replicate, ← hlen]; exact h
  rw [h3 i hi h]
  have : (List.replicate N.toNat false).get ⟨i, hi⟩ = false :=
    List.eq_of_mem_replicate (List.get_mem _ _ _)
  simp [this]

/-- Closed instance of the C6 theorem on the overlapping range string
1-2,2 against a 3-page document. -/
theorem parse_page_range_valid_tokens_witness :
    ∃ mask, parse_page_range (some ['1', '-', '2', ',', '2']) 3 = .ok mask ∧
      mask.length = (3 : Int).toNat ∧
      ∀ (i : Nat) (h : i < mask.length),
        (mask.get ⟨i, h⟩ = true ↔
          ∃ t ∈ tokensOf ['1', '-', '2', ',', '2'], t.length ≠ 0 ∧ covers t i) :=
  parse_page_range_valid_tokens ['1', '-', '2', ',', '2'] 3 (by decide) (by decide)

/-- C10: numeric token parsing stops at the first non-numeric character:
for a 10-page document, token 2abc is accepted as page 2, token 1-2-3 is
accepted as the range 1-2 (the text after the first dash converts to 2),
and token abc converts to 0 and is rejected by the start >= 1 check. -/
theorem parse_page_range_atoi_prefix :
    parse_page_range (some ['2', 'a', 'b', 'c']) 10 =
        .ok [false, true, false, false, false, false, false, false, false, false] ∧
      parse_page_range (some ['1', '-', '2', '-', '3']) 10 =
        .ok [true, true, false, false, false, false, false, false, false, false] ∧
      parse_page_range (some ['a', 'b', 'c']) 10 = .error ⟨['a', 'b', 'c'], 10⟩ :=
  ⟨rfl, rfl, rfl⟩

/-- C9: normalizing an empty option list yields exactly the documented
defaults (collate true, duplex left at the code's documented single-sided
default, custom scale 1.0, orientation and quality at their 0 defaults),
and an unrecognized duplex value falls through every strcmp branch and
leaves the duplex default unchanged, with no error raised (the normalizer
is total and never writes the error slot). -/
theorem parse_windows_options_defaults :
    parse_windows_options [] = defaultWinOptions ∧
      parse_windows_options [("duplex", "tumble")] = defaultWinOptions ∧
      defaultWinOptions.collate = true ∧
      defaultWinOptions.duplex_mode = 0 ∧
      defaultWinOptions.custom_scale = 1 ∧
      defaultWinOptions.orientation = 0 ∧
      defaultWinOptions.print_quality = 0 := by
  refine ⟨rfl, ?_, rfl, rfl, rfl, rfl, rfl⟩
  rfl

/-- A run of the page loop whose state has already failed changes
nothing: the loop condition tests the success flag first. -/
theorem pageLoop_stuck (env : PdfEnv) (i : Nat) (mask : List Bool) (st : LoopState)
    (h : st.success = false) : pageLoop env i mask st = st := by
  cases mask with
  | nil => rfl
  | cons incl rest => simp [pageLoop, h]

/-- The page loop preserves the invariant that a failed state carries a
recorded error. -/
theorem pageLoop_slot_invariant (env : PdfEnv) (i : Nat) (mask : List Bool) (st : LoopState)
    (hst : st.success = false → st.slot ≠ none) :
    (pageLoop env i mask st).success = false → (pageLoop env i mask st).slot ≠ none := by
  induction mask generalizing i st with
  | nil => exact hst
  | cons incl rest ih =>
    simp only [pageLoop]
    split
    · exact hst
    · split
      · exact ih (i + 1) st hst
      · split
        · intro _; simp
        · split
          · intro _; simp
          · split
            · exact ih (i + 1) _ (fun _ => by simp)
            · exact ih (i + 1) _ (fun h => hst h)

/-- Exhaustive description of the outcomes of _print_pdf_job_win: an
early failure before the device context exists, a StartDoc failure (the
context is deleted), a failure after the document started (AbortDoc and
DeleteDC), or a run of the page loop whose state determines the result. -/
theorem pdf_outcome_cases (env : PdfEnv) (r : Option (List Char)) (submitJob : Bool) :
    (∃ m, _print_pdf_job_win env r submitJob = ⟨0, some m, [], false, false, false⟩) ∨
      _print_pdf_job_win env r submitJob = ⟨0, some .startDoc, [], false, false, true⟩ ∨
      (∃ m, _print_pdf_job_win env r submitJob = ⟨0, some m, [], false, true, true⟩) ∨
      (∃ mask, parse_page_range r env.pageCount = .ok mask ∧ 0 < env.startDocRet ∧
        _print_pdf_job_win env r submitJob =
          { ret := if submitJob
                then (if (pageLoop env 0 mask ⟨true, [], none⟩).success then env.startDocRet
                  else 0)
                else (if (pageLoop env 0 mask ⟨true, [], none⟩).success then 1 else 0),
            slot := (pageLoop env 0 mask ⟨true, [], none⟩).slot,
            rendered := (pageLoop env 0 mask ⟨true, [], none⟩).rendered,
            endDocCalled := (pageLoop env 0 mask ⟨true, [], none⟩).success,
            abortDocCalled := !(pageLoop env 0 mask ⟨true, [], none⟩).success,
            deleteDCCalled := true }) := by
  cases h1 : env.utf16Ok with
  | false => exact Or.inl ⟨.utf16, by simp [_print_pdf_job_win, h1]⟩
  | true =>
  cases h2 : env.loadOk with
  | false => exact Or.inl ⟨.loadDoc, by simp [_print_pdf_job_win, h1, h2]⟩
  | true =>
  cases h3 : env.createDCOk with
  | false => exact Or.inl ⟨.createDC, by simp [_print_pdf_job_win, h1, h2, h3]⟩
  | true =>
  by_cases h4 : env.startDocRet ≤ 0
  · exact Or.inr (Or.inl (by simp [_print_pdf_job_win, h1, h2, h3, h4]))
  · by_cases h5 : env.pageCount ≤ 0
    · exact Or.inr (Or.inr (Or.inl
        ⟨.pageCount env.pageCount, by simp [_print_pdf_job_win, h1, h2, h3, h4, h5]⟩))
    · cases h6 : env.allocOk with
      | false => exact Or.inr (Or.inr (Or.inl
          ⟨.alloc, by simp [_print_pdf_job_win, h1, h2, h3, h4, h5, h6]⟩))
      | true =>
        cases hp : parse_page_range r env.pageCount with
        | error e =>
          exact Or.inr (Or.inr (Or.inl
            ⟨.pageRange e, by simp [_print_pdf_job_win, h1, h2, h3, h4, h5, h6, hp]⟩))
        | ok mask =>
          refine Or.inr (Or.inr (Or.inr ⟨mask, rfl, by omega, ?_⟩))
          simp [_print_pdf_job_win, h1, h2, h3, h4, h5, h6, hp]

/-- Every zero return of the Windows PDF path leaves a recorded error in
the slot. -/
theorem pdf_fail_slot (env : PdfEnv) (r : Option (List Char)) (submitJob : Bool)
    (h : (_print_pdf_job_win env r submitJob).ret = 0) :
    (_print_pdf_job_win env r submitJob).slot ≠ none := by
  rcases pdf_outcome_cases env r submitJob with ⟨m, he⟩ | he | ⟨m, he⟩ | ⟨mask, _hp, hpos, he⟩
  · rw [he]; simp
  · rw [he]; simp
  · rw [he]; simp
  · rw [he] at h ⊢
    cases hs : (pageLoop env 0 mask ⟨true, [], none⟩).success with
    | false =>
      simpa using
        pageLoop_slot_invariant env 0 mask ⟨true, [], none⟩ (fun hh => by simp at hh) hs
    | true =>
      simp only at h
      rw [hs] at h
      cases submitJob with
      | false => simp at h
      | true => simp at h; omega

/-- With submit_job false, the Windows PDF path returns 0 or 1. -/
theorem pdf_print_ret (env : PdfEnv) (r : Option (List Char)) :
    (_print_pdf_job_win env r false).ret = 0 ∨ (_print_pdf_job_win env r false).ret = 1 := by
  rcases pdf_outcome_cases env r false with ⟨m, he⟩ | he | ⟨m, he⟩ | ⟨mask, _hp, _hpos, he⟩ <;>
    rw [he] <;> simp

/-- C1 counterexample: on the Windows PDF submit path, a run in which
StartDoc succeeded with positive job id 7 and EndPage then failed returns
0, not the job id, refuting the half of C1 about submit_pdf_job. -/
theorem submit_pdf_failure_cex :
    (submit_pdf_job envPdfEndPageFail true 1 none none).1 = 0 ∧
      envPdfEndPageFail.startDocRet = 7 ∧
      (_print_pdf_job_win envPdfEndPageFail none true).abortDocCalled = true :=
  ⟨rfl, rfl, rfl⟩

/-- C1 (amended): submit_raw_data_job returns the positive job id
whenever StartDocPrinter and StartPagePrinter succeeded, for every
possible outcome of the chunked write (including failed or short
writes); the PDF submit path instead returns 0 whenever the job was
aborted, returning the job id only on full success. -/
theorem submit_job_id_semantics :
    (∀ (env : RawEnv) (len : Int) (slot : Option ErrMsg),
      env.utf16Ok = true → env.openOk = true → 0 < env.startDocJob →
      env.startPageOk = true → 0 < len →
      (submit_raw_data_job env true len slot).1 = (env.startDocJob : Int)) ∧
    (∀ (env : PdfEnv) (r : Option (List Char)),
      (_print_pdf_job_win env r true).abortDocCalled = true →
      (_print_pdf_job_win env r true).ret = 0) := by
  constructor
  · intro env len slot h1 h2 h3 h4 h5
    have c1 : ¬ ((!(true : Bool)) = true ∨ len ≤ 0) := by simp; omega
    have c2 : ¬ ((!env.utf16Ok) = true) := by simp [h1]
    have c3 : ¬ ((!env.openOk) = true) := by simp [h2]
    have c4 : ¬ (env.startDocJob = 0) := by omega
    have c5 : ¬ ((!env.startPageOk) = true) := by simp [h4]
    simp only [submit_raw_data_job, if_neg c1, if_neg c2, if_neg c3, if_neg c4, if_neg c5]
  · intro env r h
    rcases pdf_outcome_cases env r true with ⟨m, he⟩ | he | ⟨m, he⟩ | ⟨mask, _hp, _hpos, he⟩
    · rw [he]
    · rw [he]
    · rw [he]
    · rw [he] at h ⊢
      simp only at h ⊢
      simp at h
      simp [h]

/-- Closed instance of the C1 amended theorem: job id 7 is returned by
the raw submit path although every write fails, and the failed PDF submit
run of the counterexample environment returns 0. -/
theorem submit_job_id_semantics_witness :
    (submit_raw_data_job ⟨true, true, 7, true, fun _ _ => none⟩ true 5 none).1 = ((7 : Nat) : Int) ∧
      (_print_pdf_job_win envPdfEndPageFail none true).ret = 0 :=
  ⟨submit_job_id_semantics.1 ⟨true, true, 7, true, fun _ _ => none⟩ 5 none rfl rfl
      (by decide) rfl (by decide),
    submit_job_id_semantics.2 envPdfEndPageFail none rfl⟩

/-- C4 counterexample: with the 64 KB chunk size and full-count writes, a
200000-byte payload needs a final call of 3392 bytes
(200000 - 3 * 65536), not the 8192 bytes the claim states. -/
theorem chunked_write_200000_cex :
    (chunkWrite (fun _ req => some req) 200000).calls = [65536, 65536, 65536, 3392] ∧
      [65536, 65536, 65536, 3392] ≠ [65536, 65536, 65536, 8192] := by
  exact ⟨by decide, by decide⟩

/-- C4 (amended): a 200000-byte payload with the 64 KB chunk size and
every WritePrinter call succeeding with its full requested count takes
exactly 4 write calls, three of 65536 bytes and one final call of 3392
bytes; the accumulated total equals the payload length and the write is
marked successful, so raw_data_to_printer reports success. -/
theorem chunked_write_200000 :
    chunkWrite (fun _ req => some req) 200000 =
        ⟨true, 200000, [65536, 65536, 65536, 3392]⟩ ∧
      (chunkWrite (fun _ req => some req) 200000).calls.length = 4 ∧
      (raw_data_to_printer ⟨true, true, 7, true, fun _ req => some req⟩ true 200000 none).1
        = true := by
  exact ⟨by decide, by decide, by decide⟩

/-- C3 counterexample: submit_raw_data_job fails (returns 0) when
OpenPrinter fails, yet the error slot is left empty (none), so
get_last_error returns the empty string, refuting the claim that every
failure of the four named operations records a non-empty message. -/
theorem raw_failure_no_error_cex :
    submit_raw_data_job envRawOpenFail true 5 none = (0, none) := rfl

/-- C3 (amended): only the Windows PDF path records errors.
submit_raw_data_job and raw_data_to_printer never write the error slot on
any path; print_pdf and submit_pdf_job record a message for every failure
past argument validation (argument-validation failures return silently in
all four, leaving the slot unchanged). -/
theorem error_reporting_semantics :
    (∀ (env : RawEnv) (argsOk : Bool) (len : Int) (slot : Option ErrMsg),
      (submit_raw_data_job env argsOk len slot).2 = slot) ∧
    (∀ (env : RawEnv) (argsOk : Bool) (len : Int) (slot : Option ErrMsg),
      (raw_data_to_printer env argsOk len slot).2 = slot) ∧
    (∀ (env : PdfEnv) (copies : Int) (r : Option (List Char)) (slot : Option ErrMsg),
      0 < copies → (print_pdf env true copies r slot).1 = false →
      (print_pdf env true copies r slot).2 ≠ none) ∧
    (∀ (env : PdfEnv) (copies : Int) (r : Option (List Char)) (slot : Option ErrMsg),
      0 < copies → (submit_pdf_job env true copies r slot).1 = 0 →
      (submit_pdf_job env true copies r slot).2 ≠ none) := by
  refine ⟨?_, ?_, ?_, ?_⟩
  · intro env argsOk len slot
    unfold submit_raw_data_job
    repeat' split
    all_goals rfl
  · intro env argsOk len slot
    unfold raw_data_to_printer
    repeat' split
    all_goals rfl
  · intro env copies r slot hc h
    have hv : ¬ ((!(true : Bool)) = true ∨ copies ≤ 0) := by simp; omega
    rw [print_pdf, if_neg hv] at h ⊢
    simp only at h ⊢
    rcases pdf_print_ret env r with h0 | h1
    · exact pdf_fail_slot env r false h0
    · rw [h1] at h
      simp at h
  · intro env copies r slot hc h
    have hv : ¬ ((!(true : Bool)) = true ∨ copies ≤ 0) := by simp; omega
    rw [submit_pdf_job, if_neg hv] at h ⊢
    simp only at h ⊢
    exact pdf_fail_slot env r true h

/-- Closed instance of the C3 amended theorem at concrete environments:
the raw paths leave the slot untouched, and failed PDF runs leave a
recorded message. -/
theorem error_reporting_semantics_witness :
    (submit_raw_data_job envRawOpenFail true 5 none).2 = none ∧
      (raw_data_to_printer envRawOpenFail true 5 none).2 = none ∧
      (print_pdf envPdfLoadFail true 1 none none).2 ≠ none ∧
      (submit_pdf_job envPdfLoadFail true 1 none none).2 ≠ none :=
  ⟨error_reporting_semantics.1 envRawOpenFail true 5 none,
    error_reporting_semantics.2.1 envRawOpenFail true 5 none,
    error_reporting_semantics.2.2.1 envPdfLoadFail 1 none none (by decide) rfl,
    error_reporting_semantics.2.2.2 envPdfLoadFail 1 none none (by decide) rfl⟩

/-- Core loop argument for C2: if a page operation fails at the first
included page k at or after the current position i, the loop ends with a
cleared success flag having rendered no page beyond k. -/
theorem pageLoop_stops_at_failure (env : PdfEnv) (mask : List Bool) (i k : Nat)
    (st : LoopState) (hst : st.success = true) (hik : i ≤ k)
    (hk : mask.get? (k - i) = some true)
    (hfail : pageOpFails env k)
    (hbefore : ∀ j, i ≤ j → j < k → mask.get? (j - i) = some true → ¬ pageOpFails env j) :
    (pageLoop env i mask st).success = false ∧
      ∀ j ∈ (pageLoop env i mask st).rendered, j ∈ st.rendered ∨ j ≤ k := by
  induction mask generalizing i st with
  | nil => simp at hk
  | cons incl rest ih =>
    rcases Nat.eq_or_lt_of_le hik with rfl | hlt
    · have hincl : incl = true := by simpa using hk
      by_cases hl : env.loadPageOk i = false
      · refine ⟨?_, ?_⟩ <;> simp [pageLoop, hst, hincl, hl]
        intro j hj
        exact Or.inl hj
      · by_cases hsp : env.startPageOk i = false
        · have hl2 : env.loadPageOk i = true := by
            cases hx : env.loadPageOk i
            · exact absurd hx hl
            · rfl
          refine ⟨?_, ?_⟩ <;> simp [pageLoop, hst, hincl, hl2, hsp]
          intro j hj
          exact Or.inl hj
        · have hl2 : env.loadPageOk i = true := by
            cases hx : env.loadPageOk i
            · exact absurd hx hl
            · rfl
          have hsp2 : env.startPageOk i = true := by
            cases hx : env.startPageOk i
            · exact absurd hx hsp
            · rfl
          have hep : env.endPageOk i = false := by
            rcases hfail with hx | hx | hx
            · exact absurd hx hl
            · exact absurd hx hsp
            · exact hx
          have hrun : pageLoop env i (incl :: rest) st =
              { st with success := false
                        rendered := st.rendered ++ [i]
                        slot := some (.endPage i) } := by
            simp only [pageLoop, hst, hincl, hl2, hsp2, hep]
            exact pageLoop_stuck env (i + 1) rest _ rfl
          rw [hrun]
          refine ⟨rfl, ?_⟩
          intro j hj
          simp at hj
          rcases hj with hj | hj
          · exact Or.inl hj
          · exact Or.inr (le_of_eq hj)
    · have hk2 : rest.get? (k - (i + 1)) = some true := by
        have hdrop : k - i = (k - (i + 1)) + 1 := by omega
        rw [hdrop] at hk
        simpa using hk
      have hbefore2 : ∀ j, i + 1 ≤ j → j < k → rest.get? (j - (i + 1)) = some true →
          ¬ pageOpFails env j := by
        intro j h1 h2 h3
        refine hbefore j (by omega) h2 ?_
        have hdrop : j - i = (j - (i + 1)) + 1 := by omega
        rw [hdrop]
        simpa using h3
      cases hincl : incl with
      | false =>
        have hrun : pageLoop env i (false :: rest) st = pageLoop env (i + 1) rest st := by
          simp [pageLoop, hst]
        rw [hrun]
        exact ih (i + 1) st hst (by omega) hk2 hbefore2
      | true =>
        have hok : ¬ pageOpFails env i := by
          refine hbefore i (le_refl i) hlt ?_
          simp [Nat.sub_self, hincl]
        have hl2 : env.loadPageOk i = true := by
          cases hx : env.loadPageOk i
          · exact absurd (Or.inl hx) hok
          · rfl
        have hsp2 : env.startPageOk i = true := by
          cases hx : env.startPageOk i
          · exact absurd (Or.inr (Or.inl hx)) hok
          · rfl
        have hep2 : env.endPageOk i = true := by
          cases hx : env.endPageOk i
          · exact absurd (Or.inr (Or.inr hx)) hok
          · rfl
        have hrun : pageLoop env i (true :: rest) st =
            pageLoop env (i + 1) rest { st with rendered := st.rendered ++ [i] } := by
          simp [pageLoop, hst, hl2, hsp2, hep2]
        rw [hrun]
        obtain ⟨hs, hr⟩ := ih (i + 1) { st with rendered := st.rendered ++ [i] } hst
          (by omega) hk2 hbefore2
        refine ⟨hs, ?_⟩
        intro j hj
        rcases hr j hj with hj2 | hj2
        · simp at hj2
          rcases hj2 with hj2 | hj2
          · exact Or.inl hj2
          · exact Or.inr (by omega)
        · exact Or.inr hj2

/-- C2: in the Windows PDF printing loop, if a page operation (page
load, StartPage or EndPage) fails for an included page k while every
included page before k succeeds, then no page after k is rendered, the
document is closed via AbortDoc rather than EndDoc, and the device
context is still released via DeleteDC. -/
theorem pdf_page_failure_aborts (env : PdfEnv) (r : Option (List Char)) (submitJob : Bool)
    (mask : List Bool) (k : Nat)
    (h1 : env.utf16Ok = true) (h2 : env.loadOk = true) (h3 : env.createDCOk = true)
    (h4 : 0 < env.startDocRet) (h5 : 0 < env.pageCount) (h6 : env.allocOk = true)
    (hparse : parse_page_range r env.pageCount = .ok mask)
    (hk : mask.get? k = some true)
    (hfail : pageOpFails env k)
    (hbefore : ∀ j, j < k → mask.get? j = some true → ¬ pageOpFails env j) :
    (∀ j ∈ (_print_pdf_job_win env r submitJob).rendered, j ≤ k) ∧
      (∀ j, k < j → j ∉ (_print_pdf_job_win env r submitJob).rendered) ∧
      (_print_pdf_job_win env r submitJob).abortDocCalled = true ∧
      (_print_pdf_job_win env r submitJob).endDocCalled = false ∧
      (_print_pdf_job_win env r submitJob).deleteDCCalled = true := by
  have h4' : ¬ env.startDocRet ≤ 0 := by omega
  have h5' : ¬ env.pageCount ≤ 0 := by omega
  have hrun : _print_pdf_job_win env r submitJob =
      { ret := if submitJob
            then (if (pageLoop env 0 mask ⟨true, [], none⟩).success then env.startDocRet else 0)
            else (if (pageLoop env 0 mask ⟨true, [], none⟩).success then 1 else 0),
        slot := (pageLoop env 0 mask ⟨true, [], none⟩).slot,
        rendered := (pageLoop env 0 mask ⟨true, [], none⟩).rendered,
        endDocCalled := (pageLoop env 0 mask ⟨true, [], none⟩).success,
        abortDocCalled := !(pageLoop env 0 mask ⟨true, [], none⟩).success,
        deleteDCCalled := true } := by
    simp [_print_pdf_job_win, h1, h2, h3, h4', h5', h6, hparse]
  obtain ⟨hs, hr⟩ := pageLoop_stops_at_failure env mask 0 k ⟨true, [], none⟩ rfl
    (Nat.zero_le k) (by simpa using hk) hfail
    (fun j _ hj hm => hbefore j hj (by simpa using hm))
  rw [hrun]
  have hmem : ∀ j ∈ (pageLoop env 0 mask ⟨true, [], none⟩).rendered, j ≤ k := by
    intro j hj
    rcases hr j hj with hj2 | hj2
    · simp at hj2
    · exact hj2
  refine ⟨hmem, ?_, by simp [hs], hs, rfl⟩
  intro j hjk hj
  exact absurd (hmem j hj) (by omega)

/-- Closed instance of the C2 theorem: a StartPage failure on page 2 of
a 5-page document (all pages included) leaves pages 3 to 5 unrendered,
aborts the document and still releases the device context. -/
theorem pdf_page_failure_aborts_witness :
    (∀ j ∈ (_print_pdf_job_win env5 none true).rendered, j ≤ 1) ∧
      (∀ j, 1 < j → j ∉ (_print_pdf_job_win env5 none true).rendered) ∧
      (_print_pdf_job_win env5 none true).abortDocCalled = true ∧
      (_print_pdf_job_win env5 none true).endDocCalled = false ∧
      (_print_pdf_job_win env5 none true).deleteDCCalled = true :=
  pdf_page_failure_aborts env5 none true [true, true, true, true, true] 1
    rfl rfl rfl (by decide) (by decide) rfl rfl rfl (by decide)
    (by intro j hj hm; interval_cases j; decide)

end PrintingFFI
